import Mathlib

/-!
Verification of the type-string engine of the cc65 C compiler
(`src/cc65/datatype.c`): a shallow embedding of the token algebra, the
auxiliary-data codec, type-string construction, introspection and rendering,
together with proofs of the specified properties.

A type string is a flat, sentinel-terminated sequence of 16-bit tokens
(`typedef unsigned short type`).  We model a token as a `Nat` and a type
string as a `List Nat`; a C pointer into the middle of a type string becomes
a `List.drop`.  The 32-bit C types `unsigned`/`unsigned long` are modelled as
`Nat` with explicit `% 2^32` where overflow can occur (the compiler's host is
modelled with 32-bit `int`, `long` and pointers, matching the era of the
source).  Fallible operations (the `CHECK`/`Internal` abort paths) return
`Option`.
-/

namespace cc65

/-! ### Token layout constants

The constants below come from `datatype.h`, which is not part of the given
sources; they are modelled from the spec's description of the token bit
layout: disjoint bit fields for base type, class, sign, size and qualifiers,
a zero sentinel, and a high auxiliary-data marker bit. -/

/-- Modelled from the spec: the end-of-type-string sentinel token (from the
missing header `datatype.h`). -/
def T_END : Nat := 0x0000

/-- Modelled from the spec: base-type field values (missing `datatype.h`). -/
def T_TYPE_CHAR : Nat := 0x0001

def T_TYPE_SHORT : Nat := 0x0002

def T_TYPE_INT : Nat := 0x0003

def T_TYPE_LONG : Nat := 0x0004

def T_TYPE_LONGLONG : Nat := 0x0005

def T_TYPE_ENUM : Nat := 0x0006

def T_TYPE_FLOAT : Nat := 0x0007

def T_TYPE_DOUBLE : Nat := 0x0008

def T_TYPE_VOID : Nat := 0x0009

def T_TYPE_STRUCT : Nat := 0x000A

def T_TYPE_UNION : Nat := 0x000B

def T_TYPE_ARRAY : Nat := 0x000C

def T_TYPE_PTR : Nat := 0x000D

def T_TYPE_FUNC : Nat := 0x000E

def T_MASK_TYPE : Nat := 0x001F

/-- Modelled from the spec: class field values (missing `datatype.h`). -/
def T_CLASS_NONE : Nat := 0x0000

def T_CLASS_INT : Nat := 0x0020

def T_CLASS_FLOAT : Nat := 0x0040

def T_CLASS_PTR : Nat := 0x0060

def T_CLASS_STRUCT : Nat := 0x0080

def T_CLASS_FUNC : Nat := 0x00A0

def T_MASK_CLASS : Nat := 0x00E0

/-- Modelled from the spec: sign field values (missing `datatype.h`). -/
def T_SIGN_UNSIGNED : Nat := 0x0100

def T_SIGN_SIGNED : Nat := 0x0200

def T_MASK_SIGN : Nat := 0x0300

/-- Modelled from the spec: size field values (missing `datatype.h`). -/
def T_SIZE_SHORT : Nat := 0x0400

def T_SIZE_LONG : Nat := 0x0800

def T_SIZE_LONGLONG : Nat := 0x0C00

/-- Modelled from the spec: qualifier bits (missing `datatype.h`). -/
def T_QUAL_CONST : Nat := 0x1000

def T_QUAL_VOLATILE : Nat := 0x2000

def T_MASK_QUAL : Nat := 0x3000

/-- Modelled from the spec: the complete tokens built from the fields above
(missing `datatype.h`). -/
def T_SCHAR : Nat := T_TYPE_CHAR ||| T_CLASS_INT ||| T_SIGN_SIGNED

def T_UCHAR : Nat := T_TYPE_CHAR ||| T_CLASS_INT ||| T_SIGN_UNSIGNED

def T_SHORT : Nat := T_TYPE_SHORT ||| T_CLASS_INT ||| T_SIGN_SIGNED ||| T_SIZE_SHORT

def T_USHORT : Nat := T_TYPE_SHORT ||| T_CLASS_INT ||| T_SIGN_UNSIGNED ||| T_SIZE_SHORT

def T_INT : Nat := T_TYPE_INT ||| T_CLASS_INT ||| T_SIGN_SIGNED

def T_UINT : Nat := T_TYPE_INT ||| T_CLASS_INT ||| T_SIGN_UNSIGNED

def T_LONG : Nat := T_TYPE_LONG ||| T_CLASS_INT ||| T_SIGN_SIGNED ||| T_SIZE_LONG

def T_ULONG : Nat := T_TYPE_LONG ||| T_CLASS_INT ||| T_SIGN_UNSIGNED ||| T_SIZE_LONG

def T_LONGLONG : Nat := T_TYPE_LONGLONG ||| T_CLASS_INT ||| T_SIGN_SIGNED ||| T_SIZE_LONGLONG

def T_ULONGLONG : Nat := T_TYPE_LONGLONG ||| T_CLASS_INT ||| T_SIGN_UNSIGNED ||| T_SIZE_LONGLONG

def T_ENUM : Nat := T_TYPE_ENUM ||| T_CLASS_INT ||| T_SIGN_SIGNED

def T_FLOAT : Nat := T_TYPE_FLOAT ||| T_CLASS_FLOAT

def T_DOUBLE : Nat := T_TYPE_DOUBLE ||| T_CLASS_FLOAT

def T_VOID : Nat := T_TYPE_VOID ||| T_CLASS_NONE

def T_STRUCT : Nat := T_TYPE_STRUCT ||| T_CLASS_STRUCT

def T_UNION : Nat := T_TYPE_UNION ||| T_CLASS_STRUCT

def T_ARRAY : Nat := T_TYPE_ARRAY ||| T_CLASS_PTR

def T_PTR : Nat := T_TYPE_PTR ||| T_CLASS_PTR

def T_FUNC : Nat := T_TYPE_FUNC ||| T_CLASS_FUNC

/-- Modelled from the spec: the fixed number of 15-bit auxiliary-data token
slots reserved after a payload-bearing tag (`DECODE_SIZE` in the missing
`datatype.h`); it is large enough for the widest encoded value. -/
def DECODE_SIZE : Nat := 5

/-- Modelled from the spec: target byte sizes (`SIZEOF_*` in the missing
`datatype.h`), for the 8-bit target platform. -/
def SIZEOF_CHAR : Nat := 1

def SIZEOF_SHORT : Nat := 2

def SIZEOF_INT : Nat := 2

def SIZEOF_LONG : Nat := 4

def SIZEOF_LONGLONG : Nat := 8

def SIZEOF_FLOAT : Nat := 4

def SIZEOF_DOUBLE : Nat := 4

def SIZEOF_PTR : Nat := SIZEOF_INT

/-- Modelled from the spec: `UnqualifiedType(T)` strips the qualifier bits
(macro in the missing `datatype.h`); the bit complement is taken at the
host's 32-bit `int` width. -/
def UnqualifiedType (t : Nat) : Nat := t &&& 0xFFFFCFFF

/-- A type string: ordered token sequence; the sentinel `T_END` is an element
of the list in well-formed strings. -/
abbrev TypeStr := List Nat

/-! ### datatype.c: length, copy, codec, construction -/

/-- `TypeLen`: count the tokens before the first `T_END` sentinel. -/
def TypeLen (T : TypeStr) : Nat := (T.takeWhile (fun t => t != T_END)).length

/-- `TypeCpy`: the do-while loop copies token by token and stops after it has
copied a `T_END` token, so the sentinel is included in the copy. -/
def TypeCpy : TypeStr → TypeStr
  | [] => []
  | t :: ts => t :: (if t = T_END then [] else TypeCpy ts)

/-- One stored chunk of `Encode`: the low 16 bits of `Val` (truncated by the
`(type)` cast) with the auxiliary-data marker `0x8000` or-ed in. -/
def chunk (v : Nat) : Nat := (v % 65536) ||| 0x8000

/-- `Encode` loop body: each iteration stores a marked chunk and shifts
`Val` right by 15 bits; `n` counts the remaining iterations of `I`. -/
def encodeAux : Nat → Nat → List Nat
  | 0, _ => []
  | n + 1, v => chunk v :: encodeAux n (v >>> 15)

/-- `Encode`: split an `unsigned long` value into `DECODE_SIZE` marked
15-bit chunks, least-significant chunk first. -/
def Encode (v : Nat) : TypeStr := encodeAux DECODE_SIZE (v % 4294967296)

/-- `EncodePtr`: the same codec applied to an address-sized handle. -/
def EncodePtr (p : Nat) : TypeStr := Encode p

/-- `Decode` loop body: shift the 32-bit `unsigned long` accumulator left
by 15 and or in the token with the marker bit masked off. -/
def decodeStep (c val : Nat) : Nat := ((val <<< 15) % 4294967296) ||| (c &&& 0x7FFF)

/-- `Decode`: the loop reads slots `DECODE_SIZE-1` down to `0`; a `foldr`
over the first `DECODE_SIZE` tokens performs the same reads in the same
order (highest slot first). -/
def Decode (T : TypeStr) : Nat := (T.take DECODE_SIZE).foldr decodeStep 0

/-- `DecodePtr`: decode an address-sized handle. -/
def DecodePtr (T : TypeStr) : Nat := Decode T

/-- `GetDefaultChar`: the process-wide default-char-signedness flag
(`SignedChars`) is threaded as an explicit argument. -/
def GetDefaultChar (signedChars : Bool) : Nat :=
  if signedChars then T_SCHAR else T_UCHAR

/-- `SignExtendChar`: sign extension of a character held in a host 32-bit
`int`; `C | ~0xFF` sets all bits above the low byte. -/
def SignExtendChar (signedChars : Bool) (c : Nat) : Nat :=
  if signedChars && (c &&& 0x80 != 0) then c ||| 0xFFFFFF00 else c &&& 0xFF

/-- `GetCharArrayType`: `[T_ARRAY]`, the encoded length, the default char
tag, and the sentinel. -/
def GetCharArrayType (signedChars : Bool) (len : Nat) : TypeStr :=
  T_ARRAY :: (Encode len ++ [GetDefaultChar signedChars, T_END])

/-- `PointerTo`: a fresh string `[T_PTR]` followed by the `TypeLen T + 1`
tokens of `T` (its tokens and its sentinel). -/
def PointerTo (T : TypeStr) : TypeStr := T_PTR :: T.take (TypeLen T + 1)

/-! ### datatype.c: introspection -/

/-- `IsTypeArray` (macro from the header): the leading tag's base type is
`T_TYPE_ARRAY`. -/
def IsTypeArray (T : TypeStr) : Bool :=
  (T.headD T_END &&& T_MASK_TYPE) == T_TYPE_ARRAY

/-- `IsClassPtr`: the leading tag's class is `T_CLASS_PTR`. -/
def IsClassPtr (T : TypeStr) : Bool :=
  (T.headD T_END &&& T_MASK_CLASS) == T_CLASS_PTR

/-- `IsSignUnsigned`: the leading tag's sign field is `T_SIGN_UNSIGNED`. -/
def IsSignUnsigned (T : TypeStr) : Bool :=
  (T.headD T_END &&& T_MASK_SIGN) == T_SIGN_UNSIGNED

/-- `GetQualifier`: for an array the element type's tag is inspected
(skipping the array tag and its payload), otherwise the leading tag; the
source masks the tag with `T_QUAL_CONST` only. -/
def GetQualifier (T : TypeStr) : Nat :=
  (if IsTypeArray T then T.drop (DECODE_SIZE + 1) else T).headD T_END &&& T_QUAL_CONST

/-- `IsQualConst`: test `T_QUAL_CONST` in the result of `GetQualifier`. -/
def IsQualConst (T : TypeStr) : Bool :=
  (GetQualifier T &&& T_QUAL_CONST) != 0

/-- `IsQualVolatile`: test `T_QUAL_VOLATILE` in the result of
`GetQualifier`. -/
def IsQualVolatile (T : TypeStr) : Bool :=
  (GetQualifier T &&& T_QUAL_VOLATILE) != 0

/-- Conversion of a 32-bit unsigned value to the host's signed 32-bit
`long`, used where the source converts `(unsigned)` to `long`. -/
def toSigned32 (u : Nat) : Int :=
  if u < 2147483648 then (u : Int) else (u : Int) - 4294967296

/-- `GetElementCount`: `CHECK (IsTypeArray (T))`, then `(unsigned)
Decode (T+1)` returned as a signed `long`. -/
def GetElementCount (T : TypeStr) : Option Int :=
  if IsTypeArray T then some (toSigned32 (Decode (T.drop 1))) else none

/-- `GetElementType`: `CHECK (IsTypeArray (T))`, then skip the array tag and
its payload. -/
def GetElementType (T : TypeStr) : Option TypeStr :=
  if IsTypeArray T then some (T.drop (DECODE_SIZE + 1)) else none

/-- `SizeOf`: byte size of the outermost type, dispatching on the
unqualified leading tag.  The struct/union branch reads the referenced
symbol-table entry's size through the decoded handle (`symSize`).  The array
branch multiplies the element count by the element size in the 32-bit
`unsigned` return type; a negative (signed `long`) element count yields 0.
The `Internal` abort on an unknown tag (and the out-of-bounds read on an
empty string) is `none`. -/
def SizeOf (symSize : Nat → Nat) : TypeStr → Option Nat
  | [] => none
  | t :: rest =>
    if UnqualifiedType t = T_VOID then some 0
    else if UnqualifiedType t = T_SCHAR ∨ UnqualifiedType t = T_UCHAR then some SIZEOF_CHAR
    else if UnqualifiedType t = T_SHORT ∨ UnqualifiedType t = T_USHORT then some SIZEOF_SHORT
    else if UnqualifiedType t = T_INT ∨ UnqualifiedType t = T_UINT then some SIZEOF_INT
    else if UnqualifiedType t = T_PTR ∨ UnqualifiedType t = T_FUNC then some SIZEOF_PTR
    else if UnqualifiedType t = T_LONG ∨ UnqualifiedType t = T_ULONG then some SIZEOF_LONG
    else if UnqualifiedType t = T_LONGLONG ∨ UnqualifiedType t = T_ULONGLONG then
      some SIZEOF_LONGLONG
    else if UnqualifiedType t = T_ENUM then some SIZEOF_INT
    else if UnqualifiedType t = T_FLOAT then some SIZEOF_FLOAT
    else if UnqualifiedType t = T_DOUBLE then some SIZEOF_DOUBLE
    else if UnqualifiedType t = T_STRUCT ∨ UnqualifiedType t = T_UNION then
      some (symSize (Decode rest))
    else if UnqualifiedType t = T_ARRAY then
      if toSigned32 (Decode rest) < 0 then some 0
      else (SizeOf symSize (rest.drop DECODE_SIZE)).map
        (fun s => ((toSigned32 (Decode rest)).toNat * s) % 4294967296)
    else none
  termination_by T => T.length
  decreasing_by
    simp only [List.length_cons, List.length_drop]
    omega

/-- `PSizeOf`: size of the pointee; `CHECK` demands pointer class, then the
array/pointer tag (with its payload for arrays) is skipped. -/
def PSizeOf (symSize : Nat → Nat) (T : TypeStr) : Option Nat :=
  if (T.headD T_END &&& T_MASK_CLASS) = T_CLASS_PTR then
    if IsTypeArray T then SizeOf symSize (T.drop (DECODE_SIZE + 1))
    else SizeOf symSize (T.drop 1)
  else none

/-- `CheckedSizeOf`: a zero `SizeOf` emits the "Size of data type is
unknown" diagnostic (the `Bool` component) and substitutes `SIZEOF_CHAR`. -/
def CheckedSizeOf (symSize : Nat → Nat) (T : TypeStr) : Option (Nat × Bool) :=
  (SizeOf symSize T).map (fun s => if s = 0 then (SIZEOF_CHAR, true) else (s, false))

/-- `CheckedPSizeOf`: the same recovery applied to `PSizeOf`. -/
def CheckedPSizeOf (symSize : Nat → Nat) (T : TypeStr) : Option (Nat × Bool) :=
  (PSizeOf symSize T).map (fun s => if s = 0 then (SIZEOF_CHAR, true) else (s, false))

/-- Modelled from the spec: the code-generator classification flags from the
missing `codegen.h` (signed/unsigned, byte/word/long width, float flag and
the fixed-argument-count flag). -/
def CF_LONG : Nat := 0x0000

def CF_INT : Nat := 0x0001

def CF_CHAR : Nat := 0x0003

def CF_FLOAT : Nat := 0x0004

def CF_UNSIGNED : Nat := 0x0008

def CF_FIXARGC : Nat := 0x0100

/-- `TypeOf`: the code-generator base type of the object.  The function
branch decodes the function descriptor and tests its variadic flag
(`funcVariadic`, indexed by the decoded handle).  The default branch emits
the "Illegal type" diagnostic (the `Bool` component) and recovers with
`CF_INT`. -/
def TypeOf (funcVariadic : Nat → Bool) : TypeStr → Option (Nat × Bool)
  | [] => none
  | t :: rest =>
    if UnqualifiedType t = T_SCHAR then some (CF_CHAR, false)
    else if UnqualifiedType t = T_UCHAR then some (CF_CHAR ||| CF_UNSIGNED, false)
    else if UnqualifiedType t = T_SHORT ∨ UnqualifiedType t = T_INT ∨
        UnqualifiedType t = T_ENUM then some (CF_INT, false)
    else if UnqualifiedType t = T_USHORT ∨ UnqualifiedType t = T_UINT ∨
        UnqualifiedType t = T_PTR ∨ UnqualifiedType t = T_ARRAY then
      some (CF_INT ||| CF_UNSIGNED, false)
    else if UnqualifiedType t = T_LONG then some (CF_LONG, false)
    else if UnqualifiedType t = T_ULONG then some (CF_LONG ||| CF_UNSIGNED, false)
    else if UnqualifiedType t = T_FLOAT ∨ UnqualifiedType t = T_DOUBLE then
      some (CF_FLOAT, false)
    else if UnqualifiedType t = T_FUNC then
      some (if funcVariadic (Decode rest) then 0 else CF_FIXARGC, false)
    else if UnqualifiedType t = T_STRUCT ∨ UnqualifiedType t = T_UNION then
      some (CF_INT ||| CF_UNSIGNED, false)
    else some (CF_INT, true)

/-- `Indirect`: `CHECK` demands pointer class, then one indirection skips
the array tag plus payload, or just the pointer tag. -/
def Indirect (T : TypeStr) : Option TypeStr :=
  if (T.headD T_END &&& T_MASK_CLASS) = T_CLASS_PTR then
    some (if IsTypeArray T then T.drop (DECODE_SIZE + 1) else T.drop 1)
  else none

/-! ### datatype.c: rendering -/

/-- One hexadecimal digit, uppercase. -/
def hexDigit (n : Nat) : Char := "0123456789ABCDEF".toList.getD n '0'

/-- The `%04X` rendering of a 16-bit token value. -/
def hex4 (n : Nat) : String :=
  String.mk [hexDigit (n / 4096 % 16), hexDigit (n / 256 % 16),
    hexDigit (n / 16 % 16), hexDigit (n % 16)]

/-- `PrintTypeComp`: if every bit of `mask` is set in `t`, print the
component name (with a trailing blank) and clear the bits; the cleared value
is stored back into the 16-bit `type` local. -/
def PrintTypeComp (t mask : Nat) (s : String) : String × Nat :=
  if t &&& mask = mask then (s ++ " ", t &&& (65535 ^^^ mask)) else ("", t)

/-- `PrintType`: walk the token string until the sentinel, printing
qualifiers, then signedness (omitted for `int` and `long`), then the base
type.  `struct`/`union` print the referenced symbol's name (`symName`,
indexed by the decoded handle) and skip the payload; `array` recurses into
the element type and then appends the bracketed count, with empty brackets
for a zero count; `pointer` recurses into the pointee and then appends
`*`; `function` prints a prose marker and continues past its payload. -/
def PrintType (symName : Nat → String) : TypeStr → String
  | [] => ""
  | t :: rest =>
    if t = T_END then "" else
    let p1 := PrintTypeComp t T_QUAL_CONST "const"
    let p2 := PrintTypeComp p1.2 T_QUAL_VOLATILE "volatile"
    let p3 := if p2.2 &&& T_MASK_TYPE ≠ T_TYPE_INT ∧ p2.2 &&& T_MASK_TYPE ≠ T_TYPE_LONG
      then PrintTypeComp p2.2 T_SIGN_SIGNED "signed" else ("", p2.2)
    let p4 := PrintTypeComp p3.2 T_SIGN_UNSIGNED "unsigned"
    let pre := p1.1 ++ p2.1 ++ p3.1 ++ p4.1
    if p4.2 &&& T_MASK_TYPE = T_TYPE_CHAR then
      pre ++ "char" ++ PrintType symName rest
    else if p4.2 &&& T_MASK_TYPE = T_TYPE_SHORT then
      pre ++ "short" ++ PrintType symName rest
    else if p4.2 &&& T_MASK_TYPE = T_TYPE_INT then
      pre ++ "int" ++ PrintType symName rest
    else if p4.2 &&& T_MASK_TYPE = T_TYPE_LONG then
      pre ++ "long" ++ PrintType symName rest
    else if p4.2 &&& T_MASK_TYPE = T_TYPE_LONGLONG then
      pre ++ "long long" ++ PrintType symName rest
    else if p4.2 &&& T_MASK_TYPE = T_TYPE_FLOAT then
      pre ++ "float" ++ PrintType symName rest
    else if p4.2 &&& T_MASK_TYPE = T_TYPE_DOUBLE then
      pre ++ "double" ++ PrintType symName rest
    else if p4.2 &&& T_MASK_TYPE = T_TYPE_VOID then
      pre ++ "void" ++ PrintType symName rest
    else if p4.2 &&& T_MASK_TYPE = T_TYPE_STRUCT then
      pre ++ "struct " ++ symName (DecodePtr rest) ++ PrintType symName (rest.drop DECODE_SIZE)
    else if p4.2 &&& T_MASK_TYPE = T_TYPE_UNION then
      pre ++ "union " ++ symName (DecodePtr rest) ++ PrintType symName (rest.drop DECODE_SIZE)
    else if p4.2 &&& T_MASK_TYPE = T_TYPE_ARRAY then
      pre ++ (PrintType symName (rest.drop DECODE_SIZE) ++
        (if Decode rest = 0 then "[]" else "[" ++ Nat.repr (Decode rest) ++ "]"))
    else if p4.2 &&& T_MASK_TYPE = T_TYPE_PTR then
      pre ++ (PrintType symName rest ++ "*")
    else if p4.2 &&& T_MASK_TYPE = T_TYPE_FUNC then
      pre ++ "function returning " ++ PrintType symName (rest.drop DECODE_SIZE)
    else
      pre ++ "unknown type: " ++ hex4 p4.2 ++ PrintType symName rest
  termination_by T => T.length
  decreasing_by
    all_goals simp only [List.length_cons, List.length_drop]
    all_goals omega

/-! ### Well-formedness

A type string is well-formed when its first `T_END` token is its last
token: the string is sentinel-terminated and the sentinel occurs exactly
once, at the end. -/

/-- Well-formedness of a type string: everything before the single trailing
sentinel is a non-sentinel token. -/
def IsWellFormed (T : TypeStr) : Bool :=
  T.dropWhile (fun t => t != T_END) == [T_END]

/-! ### Helper lemmas about the codec -/

theorem or_and_self (a b : Nat) : (a ||| b) &&& b = b := by
  apply Nat.eq_of_testBit_eq
  intro i
  simp only [Nat.testBit_and, Nat.testBit_or]
  cases b.testBit i <;> simp

theorem chunk_and (x : Nat) : chunk x &&& 32767 = x % 32768 := by
  unfold chunk
  rw [Nat.and_distrib_right, show (32768 : Nat) &&& 32767 = 0 by decide, Nat.or_zero]
  have h := Nat.and_pow_two_sub_one_eq_mod (x % 65536) 15
  norm_num at h
  exact h

theorem chunk_marker (x : Nat) : chunk x &&& 32768 = 32768 := or_and_self _ _

theorem chunk_ne_end (x : Nat) : chunk x ≠ T_END := by
  intro h
  have hm := chunk_marker x
  rw [h] at hm
  simp [T_END] at hm

theorem encodeAux_length (n v : Nat) : (encodeAux n v).length = n := by
  induction n generalizing v with
  | zero => rfl
  | succ n ih => simp [encodeAux, ih]

theorem encode_eq (v : Nat) (hv : v < 4294967296) :
    Encode v = [chunk v, chunk (v >>> 15), chunk (v >>> 15 >>> 15),
      chunk (v >>> 15 >>> 15 >>> 15), chunk (v >>> 15 >>> 15 >>> 15 >>> 15)] := by
  unfold Encode
  rw [Nat.mod_eq_of_lt hv]
  rfl

theorem decode_cons (c0 c1 c2 c3 c4 : Nat) (E : List Nat) :
    Decode (c0 :: c1 :: c2 :: c3 :: c4 :: E) =
      decodeStep c0 (decodeStep c1 (decodeStep c2 (decodeStep c3 (decodeStep c4 0)))) := rfl

theorem decodeStep_chunk (x val : Nat) :
    decodeStep (chunk x) val = ((val <<< 15) % 4294967296) ||| (x % 32768) := by
  unfold decodeStep
  rw [show (0x7FFF : Nat) = 32767 by norm_num, chunk_and]

theorem or_eq_add_15 (a b : Nat) (hb : b < 32768) : (a * 32768) ||| b = a * 32768 + b := by
  have h := Nat.mul_add_lt_is_or (i := 15) (b := b) (by simpa using hb) a
  have h' : (32768 : Nat) * a + b = 32768 * a ||| b := by simpa using h
  rw [Nat.mul_comm a 32768]
  exact h'.symm

/-- Decoding the chunks of an encoded 32-bit value recovers the value; the
trailing tokens of the type string are not read. -/
theorem decode_encode_append (v : Nat) (hv : v < 4294967296) (E : List Nat) :
    Decode (Encode v ++ E) = v := by
  rw [encode_eq v hv]
  simp only [List.cons_append, List.nil_append, decode_cons, decodeStep_chunk]
  have h3 : v >>> 15 >>> 15 >>> 15 = 0 := by
    simp only [Nat.shiftRight_eq_div_pow]
    norm_num
    omega
  rw [h3]
  simp only [Nat.zero_shiftRight, Nat.zero_mod, Nat.zero_shiftLeft, Nat.zero_or]
  simp only [Nat.shiftRight_eq_div_pow, Nat.shiftLeft_eq]
  norm_num
  have ha1 : v / 32768 / 32768 % 32768 = v / 32768 / 32768 := by omega
  rw [ha1]
  have ha2 : v / 32768 / 32768 * 32768 % 4294967296 = v / 32768 / 32768 * 32768 := by omega
  rw [ha2, or_eq_add_15 _ _ (by omega)]
  have ha3 : v / 32768 / 32768 * 32768 + v / 32768 % 32768 = v / 32768 := by omega
  rw [ha3]
  have ha4 : v / 32768 * 32768 % 4294967296 = v / 32768 * 32768 := by omega
  rw [ha4, or_eq_add_15 _ _ (by omega)]
  omega

theorem decode_encode (v : Nat) (hv : v < 4294967296) : Decode (Encode v) = v := by
  have h := decode_encode_append v hv []
  simpa using h

/-! ### C1: codec round trip -/

/-- C1: for every value `v` in `[0, 2^31)` — indeed for every 32-bit
`unsigned long` value — decoding the result of encoding `v` into the
`DECODE_SIZE` 15-bit auxiliary-data token slots returns `v`; the same round
trip holds for every address-sized handle stored via
`EncodePtr`/`DecodePtr`. -/
theorem encode_decode_roundtrip (v : Nat) (hv : v < 4294967296) :
    Decode (Encode v) = v ∧ DecodePtr (EncodePtr v) = v :=
  ⟨decode_encode v hv, decode_encode v hv⟩

/-- Witness for C1 at the concrete value `3000000000`. -/
theorem encode_decode_roundtrip_witness :
    3000000000 < 4294967296 ∧
      (Decode (Encode 3000000000) = 3000000000 ∧
        DecodePtr (EncodePtr 3000000000) = 3000000000) :=
  ⟨by norm_num, encode_decode_roundtrip 3000000000 (by norm_num)⟩

/-! ### Helper lemmas about well-formed type strings -/

theorem wf_parts (T : TypeStr) (h : IsWellFormed T = true) :
    T = T.takeWhile (fun t => t != T_END) ++ [T_END] ∧
      ∀ a ∈ T.takeWhile (fun t => t != T_END), a ≠ T_END := by
  unfold IsWellFormed at h
  have hdw : T.dropWhile (fun t => t != T_END) = [T_END] := by simpa using h
  constructor
  · conv_lhs => rw [← List.takeWhile_append_dropWhile (p := fun t => t != T_END) (l := T)]
    rw [hdw]
  · intro a ha
    have hp := List.mem_takeWhile_imp ha
    simpa using hp

theorem typeLen_append (A B : TypeStr) :
    (∀ a ∈ A, a ≠ T_END) → TypeLen (A ++ B) = A.length + TypeLen B := by
  induction A with
  | nil => intro _; simp [TypeLen]
  | cons a A ih =>
    intro h
    have ha : (a != T_END) = true := by simpa using h a (List.mem_cons_self a A)
    have h' : ∀ x ∈ A, x ≠ T_END := fun x hx => h x (List.mem_cons_of_mem _ hx)
    have ihh := ih h'
    simp only [TypeLen, List.cons_append, List.takeWhile_cons, ha, if_true,
      List.length_cons] at ihh ⊢
    omega

theorem typeCpy_append (A B : TypeStr) :
    (∀ a ∈ A, a ≠ T_END) → TypeCpy (A ++ B) = A ++ TypeCpy B := by
  induction A with
  | nil => intro _; simp
  | cons a A ih =>
    intro h
    have ha : a ≠ T_END := h a (List.mem_cons_self a A)
    simp only [List.cons_append, TypeCpy, if_neg ha, List.append_eq]
    rw [ih (fun x hx => h x (List.mem_cons_of_mem _ hx))]

theorem typeCpy_wf (T : TypeStr) (h : IsWellFormed T = true) : TypeCpy T = T := by
  obtain ⟨h1, h2⟩ := wf_parts T h
  nth_rewrite 1 [h1]
  rw [typeCpy_append _ _ h2]
  simp only [TypeCpy, if_pos rfl]
  exact h1.symm

theorem wf_take (T : TypeStr) (h : IsWellFormed T = true) : T.take (TypeLen T + 1) = T := by
  obtain ⟨h1, _⟩ := wf_parts T h
  have hlen : T.length = TypeLen T + 1 := by
    conv_lhs => rw [h1]
    simp [TypeLen]
  rw [← hlen, List.take_length]

theorem pointerTo_wf_eq (T : TypeStr) (h : IsWellFormed T = true) :
    PointerTo T = T_PTR :: T := by
  unfold PointerTo
  rw [wf_take T h]

/-! ### C10: payload chunks are marked and never terminate a string early -/

theorem mem_encodeAux (n w c : Nat) (hc : c ∈ encodeAux n w) : ∃ x, c = chunk x := by
  induction n generalizing w with
  | zero => simp [encodeAux] at hc
  | succ n ih =>
    simp only [encodeAux, List.mem_cons] at hc
    rcases hc with rfl | hc
    · exact ⟨w, rfl⟩
    · exact ih _ hc

/-- C10: every token produced by `Encode` has the marker bit `0x8000` set
and is therefore never the `T_END` sentinel; consequently `TypeLen` counts
the `DECODE_SIZE` payload tokens of an embedded payload like ordinary
tokens (no early termination), and `TypeCpy` copies the whole string,
payload chunks and sentinel included. -/
theorem encode_marked_typeLen_typeCpy (v : Nat) (pre suf : TypeStr)
    (hpre : ∀ a ∈ pre, a ≠ T_END) (hsuf : IsWellFormed suf = true) :
    (∀ c ∈ Encode v, c &&& 0x8000 = 0x8000 ∧ c ≠ T_END) ∧
    TypeLen (pre ++ (Encode v ++ suf)) = pre.length + DECODE_SIZE + TypeLen suf ∧
    TypeCpy (pre ++ (Encode v ++ suf)) = pre ++ (Encode v ++ suf) := by
  have hmem : ∀ c ∈ Encode v, c &&& 0x8000 = 0x8000 ∧ c ≠ T_END := by
    intro c hc
    obtain ⟨x, rfl⟩ := mem_encodeAux _ _ _ hc
    exact ⟨chunk_marker x, chunk_ne_end x⟩
  have henc : ∀ a ∈ Encode v, a ≠ T_END := fun a ha => (hmem a ha).2
  have hlen : (Encode v).length = DECODE_SIZE := encodeAux_length _ _
  refine ⟨hmem, ?_, ?_⟩
  · rw [typeLen_append _ _ hpre, typeLen_append _ _ henc, hlen]
    omega
  · rw [typeCpy_append _ _ hpre, typeCpy_append _ _ henc, typeCpy_wf _ hsuf]

/-- Witness for C10: an array tag, the encoded count `7`, and an
`unsigned char` element type. -/
theorem encode_marked_typeLen_typeCpy_witness :
    (∀ a ∈ [T_ARRAY], a ≠ T_END) ∧ IsWellFormed [T_UCHAR, T_END] = true ∧
    ((∀ c ∈ Encode 7, c &&& 0x8000 = 0x8000 ∧ c ≠ T_END) ∧
      TypeLen ([T_ARRAY] ++ (Encode 7 ++ [T_UCHAR, T_END])) =
        [T_ARRAY].length + DECODE_SIZE + TypeLen [T_UCHAR, T_END] ∧
      TypeCpy ([T_ARRAY] ++ (Encode 7 ++ [T_UCHAR, T_END])) =
        [T_ARRAY] ++ (Encode 7 ++ [T_UCHAR, T_END])) :=
  ⟨by decide, by decide,
    encode_marked_typeLen_typeCpy 7 [T_ARRAY] [T_UCHAR, T_END] (by decide) (by decide)⟩

/-! ### C3: indirection inverts pointer construction -/

/-- C3: for every well-formed type string `T`, `Indirect (PointerTo T)`
yields a type string structurally equal to `T`, token for token, sentinel
included. -/
theorem indirect_pointerTo (T : TypeStr) (h : IsWellFormed T = true) :
    Indirect (PointerTo T) = some T := by
  rw [pointerTo_wf_eq T h]
  have harr : IsTypeArray (T_PTR :: T) = false := by
    simp only [IsTypeArray, List.headD_cons]
    decide
  simp only [Indirect, harr, List.headD_cons]
  rw [if_pos (by decide : T_PTR &&& T_MASK_CLASS = T_CLASS_PTR)]
  simp

/-- Witness for C3 at the concrete type string `unsigned int`. -/
theorem indirect_pointerTo_witness :
    IsWellFormed [T_UINT, T_END] = true ∧
      Indirect (PointerTo [T_UINT, T_END]) = some [T_UINT, T_END] :=
  ⟨by decide, indirect_pointerTo [T_UINT, T_END] (by decide)⟩

/-! ### C4: length and size of a constructed pointer type -/

/-- C4: for every well-formed type string `T`, `PointerTo T` has one more
token before the sentinel than `T`, and its `SizeOf` is the platform
pointer size `SIZEOF_PTR` regardless of `T` (and of the symbol table). -/
theorem pointerTo_len_sizeOf (T : TypeStr) (h : IsWellFormed T = true) :
    TypeLen (PointerTo T) = TypeLen T + 1 ∧
      ∀ symSize : Nat → Nat, SizeOf symSize (PointerTo T) = some SIZEOF_PTR := by
  rw [pointerTo_wf_eq T h]
  constructor
  · have hp : (T_PTR != T_END) = true := by decide
    simp only [TypeLen, List.takeWhile_cons, hp, if_true, List.length_cons]
  · intro symSize
    simp +decide [SizeOf]

/-- Witness for C4 at the concrete type string `long`. -/
theorem pointerTo_len_sizeOf_witness :
    IsWellFormed [T_LONG, T_END] = true ∧
      (TypeLen (PointerTo [T_LONG, T_END]) = TypeLen [T_LONG, T_END] + 1 ∧
        ∀ symSize : Nat → Nat,
          SizeOf symSize (PointerTo [T_LONG, T_END]) = some SIZEOF_PTR) :=
  ⟨by decide, pointerTo_len_sizeOf [T_LONG, T_END] (by decide)⟩

/-! ### C5: qualifier predicates

`GetQualifier` masks the inspected tag with `T_QUAL_CONST` only, so
`IsQualVolatile` can never observe the volatile bit: the code contradicts
its own comment ("Return true if the given type has a volatile type
qualifier").  The const half of the claim, including the redirection to the
element type for arrays, does hold. -/

/-- C5 (code bug): on the type string `volatile unsigned char` the volatile
bit is set on the leading tag, yet `IsQualVolatile` reports `false`; the
const predicate behaves as claimed, also through an array tag. -/
theorem isQualVolatile_misses_volatile :
    IsQualVolatile [T_UCHAR ||| T_QUAL_VOLATILE, T_END] = false ∧
    (T_UCHAR ||| T_QUAL_VOLATILE) &&& T_QUAL_VOLATILE ≠ 0 ∧
    IsQualConst [T_UCHAR ||| T_QUAL_CONST, T_END] = true ∧
    IsQualConst [T_UCHAR, T_END] = false ∧
    IsQualConst (T_ARRAY :: (Encode 3 ++ [T_UCHAR ||| T_QUAL_CONST, T_END])) = true := by
  decide

/-! ### C6: checked size queries never return zero -/

/-- C6: `CheckedSizeOf` returns `SizeOf` unchanged with no diagnostic when
it is non-zero; a zero size emits the "Size of data type is unknown" error
and returns the one-byte `SIZEOF_CHAR` instead, so the result is never
zero; `CheckedPSizeOf` treats `PSizeOf` the same way. -/
theorem checkedSizeOf_spec (symSize : Nat → Nat) (T : TypeStr) (s : Nat) :
    (SizeOf symSize T = some s →
      (s ≠ 0 → CheckedSizeOf symSize T = some (s, false)) ∧
      (s = 0 → CheckedSizeOf symSize T = some (SIZEOF_CHAR, true))) ∧
    (∀ r e, CheckedSizeOf symSize T = some (r, e) → r ≠ 0) ∧
    (PSizeOf symSize T = some s →
      (s ≠ 0 → CheckedPSizeOf symSize T = some (s, false)) ∧
      (s = 0 → CheckedPSizeOf symSize T = some (SIZEOF_CHAR, true))) ∧
    (∀ r e, CheckedPSizeOf symSize T = some (r, e) → r ≠ 0) := by
  refine ⟨?_, ?_, ?_, ?_⟩
  · intro h
    exact ⟨fun hne => by simp [CheckedSizeOf, h, hne],
      fun h0 => by simp [CheckedSizeOf, h, h0, SIZEOF_CHAR]⟩
  · intro r e hre
    rcases hSZ : SizeOf symSize T with _ | s'
    · simp [CheckedSizeOf, hSZ] at hre
    · by_cases hs : s' = 0
      · simp [CheckedSizeOf, hSZ, hs, SIZEOF_CHAR] at hre
        omega
      · simp [CheckedSizeOf, hSZ, hs] at hre
        omega
  · intro h
    exact ⟨fun hne => by simp [CheckedPSizeOf, h, hne],
      fun h0 => by simp [CheckedPSizeOf, h, h0, SIZEOF_CHAR]⟩
  · intro r e hre
    rcases hSZ : PSizeOf symSize T with _ | s'
    · simp [CheckedPSizeOf, hSZ] at hre
    · by_cases hs : s' = 0
      · simp [CheckedPSizeOf, hSZ, hs, SIZEOF_CHAR] at hre
        omega
      · simp [CheckedPSizeOf, hSZ, hs] at hre
        omega

/-- Witness for C6: `void` has size zero, so `CheckedSizeOf` substitutes
the one-byte size and reports the error. -/
theorem checkedSizeOf_spec_witness :
    SizeOf (fun _ => 0) [T_VOID, T_END] = some 0 ∧
      CheckedSizeOf (fun _ => 0) [T_VOID, T_END] = some (SIZEOF_CHAR, true) :=
  ⟨by simp +decide [SizeOf],
    ((checkedSizeOf_spec (fun _ => 0) [T_VOID, T_END] 0).1
      (by simp +decide [SizeOf])).2 rfl⟩

/-! ### C7: default char signedness and sign extension -/

theorem or_mask_and_of_disjoint (a b m : Nat) (h : b &&& m = 0) :
    (a ||| b) &&& m = a &&& m := by
  rw [Nat.and_distrib_right, h, Nat.or_zero]

theorem getCharArrayType_drop (sc : Bool) (n : Nat) :
    (GetCharArrayType sc n).drop (DECODE_SIZE + 1) = [GetDefaultChar sc, T_END] := by
  have hlen : (Encode n).length = DECODE_SIZE := encodeAux_length _ _
  unfold GetCharArrayType
  conv_lhs => rw [show DECODE_SIZE + 1 = (Encode n).length + 1 by rw [hlen]]
  rw [List.drop_succ_cons, List.drop_left]

/-- C7: with the unsigned-by-default configuration `GetCharArrayType`
builds an array whose element type is `unsigned char`, with the
signed-by-default configuration a `signed char`; and `SignExtendChar`
returns its argument with all bits above the low byte set exactly when the
signed configuration is active and bit `0x80` is set, and returns
`C & 0xFF` in every other case. -/
theorem charArray_signExtend_spec (n c : Nat) (sc : Bool) :
    GetElementType (GetCharArrayType false n) = some [T_UCHAR, T_END] ∧
    GetElementType (GetCharArrayType true n) = some [T_SCHAR, T_END] ∧
    (¬(sc = true ∧ c &&& 0x80 ≠ 0) → SignExtendChar sc c = c &&& 0xFF) ∧
    (sc = true → c &&& 0x80 ≠ 0 →
      SignExtendChar sc c &&& 0xFF = c &&& 0xFF ∧
      SignExtendChar sc c &&& 0xFFFFFF00 = 0xFFFFFF00) := by
  have harr : ∀ sc' : Bool, IsTypeArray (GetCharArrayType sc' n) = true := by
    intro sc'
    simp only [GetCharArrayType, IsTypeArray, List.headD_cons]
    decide
  have helem : ∀ sc' : Bool,
      GetElementType (GetCharArrayType sc' n) = some [GetDefaultChar sc', T_END] := by
    intro sc'
    unfold GetElementType
    rw [harr sc', if_pos rfl, getCharArrayType_drop]
  refine ⟨?_, ?_, ?_, ?_⟩
  · rw [helem false]
    rfl
  · rw [helem true]
    rfl
  · intro h
    unfold SignExtendChar
    rw [if_neg]
    intro hb
    rcases sc with _ | _
    · simp at hb
    · simp only [Bool.true_and] at hb
      exact h ⟨rfl, by simpa using hb⟩
  · intro hsc hbit
    subst hsc
    unfold SignExtendChar
    rw [if_pos (by simpa using hbit)]
    constructor
    · exact or_mask_and_of_disjoint c 0xFFFFFF00 0xFF (by decide)
    · exact or_and_self c 0xFFFFFF00

/-- Witness for C7 at `C = 0x85` under the signed configuration. -/
theorem charArray_signExtend_spec_witness :
    SignExtendChar true 0x85 &&& 0xFF = 0x85 &&& 0xFF ∧
      SignExtendChar true 0x85 &&& 0xFFFFFF00 = 0xFFFFFF00 :=
  (charArray_signExtend_spec 5 0x85 true).2.2.2 rfl (by decide)

/-! ### C8: code-generator classification -/

theorem typeOf_case_false {A r u : Nat} {e : Bool} {L : List Nat}
    (h : (some (A, false) : Option (Nat × Bool)) = some (r, e)) (hm : u ∈ L) :
    e = true ↔ u ∉ L := by
  have he : false = e := congrArg Prod.snd (Option.some.inj h)
  subst he
  simp [hm]

theorem typeOf_case_true {A r u : Nat} {e : Bool} {L : List Nat}
    (h : (some (A, true) : Option (Nat × Bool)) = some (r, e)) (hm : u ∉ L) :
    e = true ↔ u ∉ L := by
  have he : true = e := congrArg Prod.snd (Option.some.inj h)
  subst he
  simp [hm]

/-- C8: `TypeOf` maps every pointer, array, struct and union type to the
unsigned address-width class `CF_INT ||| CF_UNSIGNED`; a type with no valid
classification (such as `void`) yields the "Illegal type" diagnostic and
the default class `CF_INT`, and the diagnostic is emitted exactly when the
unqualified leading tag is none of the handled type tags. -/
theorem typeOf_spec (fv : Nat → Bool) (t : Nat) (rest : TypeStr) :
    ((UnqualifiedType t = T_PTR ∨ UnqualifiedType t = T_ARRAY ∨
        UnqualifiedType t = T_STRUCT ∨ UnqualifiedType t = T_UNION) →
      TypeOf fv (t :: rest) = some (CF_INT ||| CF_UNSIGNED, false)) ∧
    (UnqualifiedType t = T_VOID → TypeOf fv (t :: rest) = some (CF_INT, true)) ∧
    (∀ r e, TypeOf fv (t :: rest) = some (r, e) →
      (e = true ↔ UnqualifiedType t ∉ [T_SCHAR, T_UCHAR, T_SHORT, T_INT, T_ENUM,
        T_USHORT, T_UINT, T_PTR, T_ARRAY, T_LONG, T_ULONG, T_FLOAT, T_DOUBLE,
        T_FUNC, T_STRUCT, T_UNION])) := by
  refine ⟨?_, ?_, ?_⟩
  · intro h
    rcases h with h | h | h | h <;> simp +decide [TypeOf, h]
  · intro h
    simp +decide [TypeOf, h]
  · intro r e hre
    simp only [TypeOf] at hre
    split_ifs at hre with h1 h2 h3 h4 h5 h6 h7 h8 hfv h9
    · exact typeOf_case_false hre (by rw [h1]; decide)
    · exact typeOf_case_false hre (by rw [h2]; decide)
    · exact typeOf_case_false hre (by rcases h3 with h | h | h <;> rw [h] <;> decide)
    · exact typeOf_case_false hre (by rcases h4 with h | h | h | h <;> rw [h] <;> decide)
    · exact typeOf_case_false hre (by rw [h5]; decide)
    · exact typeOf_case_false hre (by rw [h6]; decide)
    · exact typeOf_case_false hre (by rcases h7 with h | h <;> rw [h] <;> decide)
    · exact typeOf_case_false hre (by rw [h8]; decide)
    · exact typeOf_case_false hre (by rw [h8]; decide)
    · exact typeOf_case_false hre (by rcases h9 with h | h <;> rw [h] <;> decide)
    · refine typeOf_case_true hre ?_
      intro hm
      simp only [List.mem_cons, List.not_mem_nil, or_false] at hm
      tauto

/-- Witness for C8 at the `void` type. -/
theorem typeOf_spec_witness :
    UnqualifiedType T_VOID = T_VOID ∧
      TypeOf (fun _ => false) [T_VOID, T_END] = some (CF_INT, true) :=
  ⟨by decide, (typeOf_spec (fun _ => false) T_VOID [T_END]).2.1 (by decide)⟩

/-! ### C2: array sizes

`SizeOf` computes the array size as element count times element size in the
host's 32-bit `unsigned`, so the product is reduced mod `2^32`; the claim's
unqualified `n*s` fails for products of `2^32` and above (see the
counterexample below).  The "unspecified length" encoding (count `0`, the
value printed as `[]`) yields size `0`, and `CheckedSizeOf` then reports
the diagnosable fault. -/

theorem encode_drop (v : Nat) (E : List Nat) :
    (Encode v ++ E).drop DECODE_SIZE = E := by
  rw [show DECODE_SIZE = (Encode v).length from (encodeAux_length _ _).symm, List.drop_left]

/-- C2 (amended): for a well-formed array type whose decoded element count
`v` is non-negative as a signed long (`v < 2^31`) over an element type of
size `s`, `SizeOf` returns `v * s` reduced modulo `2^32` — which is `v * s`
itself whenever the product fits in 32 bits; for the unspecified-length
marker (count `0`) `SizeOf` returns `0` and `CheckedSizeOf` reports the
user-diagnosable "size unknown" fault. -/
theorem sizeOf_array (symSize : Nat → Nat) (v s : Nat) (E : TypeStr)
    (hv : v < 2147483648) (hs : SizeOf symSize E = some s) :
    SizeOf symSize (T_ARRAY :: (Encode v ++ E)) = some ((v * s) % 4294967296) ∧
    (v * s < 4294967296 →
      SizeOf symSize (T_ARRAY :: (Encode v ++ E)) = some (v * s)) ∧
    (v = 0 →
      SizeOf symSize (T_ARRAY :: (Encode v ++ E)) = some 0 ∧
      CheckedSizeOf symSize (T_ARRAY :: (Encode v ++ E)) = some (SIZEOF_CHAR, true)) := by
  have hdec : Decode (Encode v ++ E) = v := decode_encode_append v (by omega) E
  have htos : toSigned32 v = (v : Int) := by
    unfold toSigned32
    rw [if_pos hv]
  have hmain : SizeOf symSize (T_ARRAY :: (Encode v ++ E)) =
      some ((v * s) % 4294967296) := by
    simp +decide only [SizeOf, hdec, htos]
    rw [if_neg (by omega : ¬((v : Int) < 0)), encode_drop, hs]
    simp
  refine ⟨hmain, fun hfit => ?_, fun h0 => ?_⟩
  · rw [hmain, Nat.mod_eq_of_lt hfit]
  · subst h0
    have h00 : SizeOf symSize (T_ARRAY :: (Encode 0 ++ E)) = some 0 := by
      simpa using hmain
    exact ⟨h00, by simp [CheckedSizeOf, h00, SIZEOF_CHAR]⟩

/-- C2 counterexample: an array of `2^30` elements of type `long` (element
size 4).  The claim as stated demands `SizeOf = 2^30 * 4 = 2^32`, but the
32-bit `unsigned` multiplication wraps to `0`. -/
theorem sizeOf_array_overflow_counterexample :
    SizeOf (fun _ => 0) (T_ARRAY :: (Encode 1073741824 ++ [T_LONG, T_END])) = some 0 ∧
    SizeOf (fun _ => 0) [T_LONG, T_END] = some SIZEOF_LONG ∧
    1073741824 * SIZEOF_LONG ≠ 0 := by
  refine ⟨?_, by simp +decide [SizeOf], by decide⟩
  have h := (sizeOf_array (fun _ => 0) 1073741824 SIZEOF_LONG [T_LONG, T_END]
    (by norm_num) (by simp +decide [SizeOf])).1
  simpa using h

/-- Witness for C2 (amended) at an array of 10 `int`s. -/
theorem sizeOf_array_witness :
    10 < 2147483648 ∧ SizeOf (fun _ => 0) [T_INT, T_END] = some 2 ∧
      SizeOf (fun _ => 0) (T_ARRAY :: (Encode 10 ++ [T_INT, T_END])) =
        some ((10 * 2) % 4294967296) :=
  ⟨by norm_num, by simp +decide [SizeOf],
    (sizeOf_array (fun _ => 0) 10 2 [T_INT, T_END] (by norm_num)
      (by simp +decide [SizeOf])).1⟩

/-! ### C9: rendering of arrays, pointers and qualifiers -/

/-- C9: rendering an array prints the element type first and then the
bracketed decoded element count — empty brackets `[]` for the unspecified
(zero) count; rendering a pointer prints the pointee first and then a
trailing `*`; qualifiers are printed before the base type, as in the
concrete `pointer to const char` rendering; an array of 10 `int`s renders
as `int[10]`. -/
theorem printType_rules (symName : Nat → String) (v : Nat) (E rest : TypeStr)
    (hv : v < 4294967296) :
    PrintType symName (T_ARRAY :: (Encode v ++ E)) =
      PrintType symName E ++
        (if v = 0 then "[]" else "[" ++ Nat.repr v ++ "]") ∧
    PrintType symName (T_PTR :: rest) = PrintType symName rest ++ "*" ∧
    PrintType symName [T_PTR, T_SCHAR ||| T_QUAL_CONST, T_END] = "const signed char*" ∧
    PrintType symName (T_ARRAY :: (Encode 10 ++ [T_INT, T_END])) = "int[10]" := by
  have harray : ∀ w : Nat, ∀ F : TypeStr, w < 4294967296 →
      PrintType symName (T_ARRAY :: (Encode w ++ F)) =
        PrintType symName F ++ (if w = 0 then "[]" else "[" ++ Nat.repr w ++ "]") := by
    intro w F hw
    have hdecw : Decode (Encode w ++ F) = w := decode_encode_append w hw F
    simp +decide only [PrintType, PrintTypeComp, hdecw, encode_drop]
    simp
  refine ⟨harray v E hv, ?_, ?_, ?_⟩
  · simp +decide only [PrintType, PrintTypeComp]
    simp
  · simp +decide [PrintType, PrintTypeComp]
  · rw [harray 10 [T_INT, T_END] (by norm_num)]
    simp +decide [PrintType, PrintTypeComp]

/-- Witness for C9 at an unspecified-length array of `unsigned char`. -/
theorem printType_rules_witness :
    0 < 4294967296 ∧
      PrintType (fun _ => "S") (T_ARRAY :: (Encode 0 ++ [T_UCHAR, T_END])) =
        PrintType (fun _ => "S") [T_UCHAR, T_END] ++
          (if 0 = 0 then "[]" else "[" ++ Nat.repr 0 ++ "]") :=
  ⟨by norm_num,
    (printType_rules (fun _ => "S") 0 [T_UCHAR, T_END] [] (by norm_num)).1⟩

end cc65
